import Mathlib

/-!
Verification development for the `sacamantecas` program
(`src/sacamantecas.py`).

The program enriches bibliographic records with metadata scraped from
catalogue web pages.  This file gives a shallow embedding of its core
logic, translated from the Python source:

* the byte-level meta-refresh / charset regular expressions and the
  charset fallback chain of `retrieve_uri_contents`;
* the `LibraryCatalogueHTMLParser` handlers (`handle_starttag`,
  `handle_endtag`, `handle_data`, `parse`), embedded at the level of the
  tag/text event stream that Python's `html.parser.HTMLParser` feeds to
  the handlers (the tokenizer itself is standard-library code, so it is
  kept abstract: where needed, a tokenizer is a parameter);
* the record sources (`MantecaExcel.get_mantecas`,
  `MantecaText.get_mantecas`), the spreadsheet sink
  (`SkimmedExcel.add_metadata`) and the per-row loop of `main`.

Machine-level details that the claims do not touch (logging, styling,
Windows message boxes) are omitted.  Byte strings are `List Nat`
(each entry one byte), network responses are given by an explicit
`Network` oracle, and Python dict semantics (insertion order,
overwrite-in-place) are modelled by association lists.
-/

namespace Sacamantecas

/-! ## Python-style string helpers -/

/-- Python `str.split()` whitespace set, restricted to the ASCII
whitespace characters (the inputs in question are HTML text). -/
def isPyWhitespace (c : Char) : Bool :=
  c = ' ' ∨ c = '\t' ∨ c = '\n' ∨ c = '\r' ∨ c = '\x0b' ∨ c = '\x0c'

/-- Helper for Python `str.split()`: split into maximal non-whitespace
words, discarding empty fragments.  `acc` is the current word, reversed. -/
def splitWSAux : List Char → List Char → List (List Char)
  | [], acc => if acc = [] then [] else [acc.reverse]
  | c :: cs, acc =>
    if isPyWhitespace c then
      if acc = [] then splitWSAux cs [] else acc.reverse :: splitWSAux cs []
    else splitWSAux cs (c :: acc)

/-- Python `' '.join(data.split())`: collapse all whitespace runs to a
single space and trim both ends. -/
def pyNormalizeWS (s : String) : String :=
  String.intercalate " " ((splitWSAux s.toList []).map String.mk)

/-- Python `data.rstrip(':')`: remove all trailing colons. -/
def rstripColon (s : String) : String :=
  String.mk ((s.toList.reverse.dropWhile (fun c => c = ':')).reverse)

/-- Python `str.strip()`: trim whitespace on both ends. -/
def pyStrip (s : String) : String :=
  String.mk (((s.toList.dropWhile isPyWhitespace).reverse.dropWhile isPyWhitespace).reverse)

/-- Does `needle` occur at the start of `hay`? -/
def listStartsWith : List Char → List Char → Bool
  | [], _ => true
  | _ :: _, [] => false
  | a :: as, b :: bs => a = b && listStartsWith as bs

/-- Does `needle` occur anywhere inside `hay`? -/
def listContains (needle : List Char) : List Char → Bool
  | [] => needle.isEmpty
  | b :: bs => listStartsWith needle (b :: bs) || listContains needle bs

/-- Python substring containment `needle in hay`. -/
def strContains (needle hay : String) : Bool :=
  listContains needle.toList hay.toList

/-! ## The configured class markers and prefix (module constants) -/

/-- Class marker for tags containing metadata keys. -/
def CONFIG_K_DIV_CLASS : String := "auth"

/-- Class marker for tags containing metadata values. -/
def CONFIG_V_DIV_CLASS : String := "titn"

/-- Prefix added to sink column headers for new metadata. -/
def CONFIG_PREFIX : String := "[sm] "

/-! ## `LibraryCatalogueHTMLParser` state and handlers -/

/-- The mutable state of `LibraryCatalogueHTMLParser`: the two region
flags, the two text buffers, and the result dict (an insertion-ordered
association list, as Python dicts are). -/
structure ParserState where
  within_k_tag : Bool
  within_v_tag : Bool
  current_key : String
  current_value : String
  retrieved_metadata : List (String × String)
deriving DecidableEq, Repr

/-- The state set up by `__init__`. -/
def initParserState : ParserState :=
  { within_k_tag := false, within_v_tag := false,
    current_key := "", current_value := "", retrieved_metadata := [] }

/-- Python dict assignment `d[k] = v`: overwrite in place if the key is
present (keeping its position), otherwise append at the end. -/
def dictAssign : List (String × String) → String → String → List (String × String)
  | [], k, v => [(k, v)]
  | p :: rest, k, v => if p.1 = k then (k, v) :: rest else p :: dictAssign rest k v

/-- Python dict lookup `d[k]` (first — and only — binding of `k`). -/
def dictGet : List (String × String) → String → Option String
  | [], _ => none
  | p :: rest, k => if p.1 = k then some p.2 else dictGet rest k

/-- One iteration of the attribute loop in `handle_starttag`.  Both
marker tests run on every attribute, in source order. -/
def startTagStep (k_class v_class : String) (st : ParserState) (attr : String × String) : ParserState :=
  let st1 := if attr.1 == "class" && strContains k_class attr.2 then
      { st with within_k_tag := true, current_key := "" } else st
  if attr.1 == "class" && strContains v_class attr.2 then
    { st1 with within_v_tag := true, current_value := "" } else st1

/-- `handle_starttag(tag, attrs)`: the tag name is unused; the attribute
list is scanned for `class` attributes containing the markers. -/
def handle_starttag (k_class v_class : String) (attrs : List (String × String)) (s : ParserState) : ParserState :=
  attrs.foldl (startTagStep k_class v_class) s

/-- `handle_endtag(tag)`: the tag name is ignored.  A set key flag is
cleared; a set value flag is cleared and the `(key or sentinel, value)`
pair is committed to the result dict, resetting both buffers.  The
program spells the empty-key sentinel `"[vacío]"` (Spanish for
"[empty]"). -/
def handle_endtag (_tag : String) (s : ParserState) : ParserState :=
  let s1 := if s.within_k_tag then { s with within_k_tag := false } else s
  if s1.within_v_tag then
    { s1 with
      within_v_tag := false
      retrieved_metadata := dictAssign s1.retrieved_metadata
        (if s1.current_key = "" then "[vacío]" else s1.current_key) s1.current_value
      current_key := ""
      current_value := "" }
  else s1

/-- `handle_data(data)`: inside either region, whitespace-normalize and
drop empty text; append to the key buffer with trailing colons stripped,
and to the value buffer with a `" / "` separator when it is non-empty. -/
def handle_data (data : String) (s : ParserState) : ParserState :=
  if s.within_k_tag || s.within_v_tag then
    let d := pyNormalizeWS data
    if d = "" then s
    else
      let s1 := if s.within_k_tag then
          { s with current_key := s.current_key ++ rstripColon d } else s
      if s1.within_v_tag then
        { s1 with current_value := (if s1.current_value ≠ "" then s1.current_value ++ " / " else "") ++ d }
      else s1
  else s

/-- The events `html.parser.HTMLParser` feeds to the handlers. -/
inductive HTMLEvent where
  | starttag (tag : String) (attrs : List (String × String))
  | endtag (tag : String)
  | text (data : String)
deriving DecidableEq, Repr

/-- Dispatch one tokenizer event to the corresponding handler. -/
def handleEvent (k_class v_class : String) (s : ParserState) : HTMLEvent → ParserState
  | .starttag _ attrs => handle_starttag k_class v_class attrs s
  | .endtag t => handle_endtag t s
  | .text d => handle_data d s

/-- `feed`: run the handlers over an event stream. -/
def feed (k_class v_class : String) (s : ParserState) (events : List HTMLEvent) : ParserState :=
  events.foldl (handleEvent k_class v_class) s

/-- `parse(contents)`: clear `retrieved_metadata` (and nothing else —
the flags and buffers are *not* reset), feed the contents, and return
the whole state; `.retrieved_metadata` of the result is the returned
mapping.  `HTMLParser.close()` only flushes the tokenizer, which is a
no-op at the event level. -/
def parse (k_class v_class : String) (s : ParserState) (events : List HTMLEvent) : ParserState :=
  feed k_class v_class { s with retrieved_metadata := [] } events

/-! ## Byte strings and the byte-level regular expressions

`retrieve_uri_contents` scans the *undecoded* byte body with three
case-insensitive byte regexes.  Byte strings are `List Nat`; the three
patterns are implemented directly, with the exact backtracking
behaviour of Python `re.search` on these concrete patterns. -/

/-- The byte string of an ASCII (code point < 256) Lean string literal:
each character's code point is one byte. -/
def strBytes (s : String) : List Nat :=
  s.toList.map Char.toNat

/-- ASCII lower-casing of a byte, as `re.I` folds bytes. -/
def lowerByte (b : Nat) : Nat :=
  if 0x41 ≤ b ∧ b ≤ 0x5A then b + 0x20 else b

/-- Match the literal `pat` case-insensitively at the start of `s`,
returning the remainder. -/
def stripPrefixCI : List Nat → List Nat → Option (List Nat)
  | [], s => some s
  | _ :: _, [] => none
  | p :: ps, b :: bs => if lowerByte b = lowerByte p then stripPrefixCI ps bs else none

/-- Regex fragment `[^c]*c`: the (possibly empty) run of bytes before
the first occurrence of byte `c`, and the remainder after that `c`;
`none` when `c` does not occur. -/
def splitUntilByte (c : Nat) : List Nat → Option (List Nat × List Nat)
  | [] => none
  | b :: bs =>
    if b = c then some ([], bs)
    else (splitUntilByte c bs).map (fun pr => (b :: pr.1, pr.2))

/-- Regex `\s` in byte mode: space, `\t`, `\n`, `\r`, `\f`, `\v`. -/
def isWSByte (b : Nat) : Bool :=
  b = 0x20 ∨ b = 0x09 ∨ b = 0x0A ∨ b = 0x0D ∨ b = 0x0C ∨ b = 0x0B

/-- The literal head of the meta-refresh pattern. -/
def refreshLit : List Nat := strBytes "<meta http-equiv=\"refresh\" content=\""

/-- Match `rb'<meta http-equiv="refresh" content="[^;]+;\s*url=([^"]+)"'`
(case-insensitive) anchored at the start of `s`, returning the `url=`
capture group.  `[^;]+` and `([^"]+)` are greedy but cannot cross their
stop byte, so the match is deterministic given the start position. -/
def matchRefreshAt (s : List Nat) : Option (List Nat) :=
  (stripPrefixCI refreshLit s).bind (fun r1 =>
    (splitUntilByte 0x3B r1).bind (fun pr =>
      if pr.1 = [] then none
      else
        (stripPrefixCI (strBytes "url=") (pr.2.dropWhile isWSByte)).bind (fun r4 =>
          (splitUntilByte 0x22 r4).bind (fun tr =>
            if tr.1 = [] then none else some tr.1))))

/-- `re.search` driver: try the anchored matcher at every position,
leftmost start first. -/
def searchBytesWith (m : List Nat → Option (List Nat)) : List Nat → Option (List Nat)
  | [] => m []
  | b :: bs =>
    match m (b :: bs) with
    | some r => some r
    | none => searchBytesWith m bs

/-- `re.search` for the meta-refresh pattern over a byte body. -/
def searchRefresh (s : List Nat) : Option (List Nat) :=
  searchBytesWith matchRefreshAt s

/-- The literal head of the `content-type` charset pattern. -/
def contentTypeLit : List Nat := strBytes "<meta http-equiv=\"content-type\""

/-- Capture `([^"]+)"`: the non-empty run before the next `"`. -/
def quoteCapture (r : List Nat) : Option (List Nat) :=
  (splitUntilByte 0x22 r).bind (fun pr => if pr.1 = [] then none else some pr.1)

/-- Match `rb'<meta http-equiv="content-type".*charset=([^"]+)"'`
(case-insensitive) anchored at the start of `s`.  `.*` is greedy and
does not cross a newline, so the engine uses the *rightmost* occurrence
of `charset=` on the same line whose capture succeeds (the capture
itself may cross newlines). -/
def matchContentTypeAt (s : List Nat) : Option (List Nat) :=
  (stripPrefixCI contentTypeLit s).bind (fun r1 =>
    let lineLen := (r1.takeWhile (fun b => b ≠ 0x0A)).length
    let cands := (List.range (lineLen + 1)).filterMap (fun i =>
      (stripPrefixCI (strBytes "charset=") (r1.drop i)).bind quoteCapture)
    cands.getLast?)

/-- `re.search` for the `content-type` charset pattern. -/
def searchContentType (s : List Nat) : Option (List Nat) :=
  searchBytesWith matchContentTypeAt s

/-- Match `rb'<meta charset="([^"]+)"'` (case-insensitive) anchored at
the start of `s`. -/
def matchMetaCharsetAt (s : List Nat) : Option (List Nat) :=
  (stripPrefixCI (strBytes "<meta charset=\"") s).bind quoteCapture

/-- `re.search` for the `<meta charset="...">` pattern. -/
def searchMetaCharset (s : List Nat) : Option (List Nat) :=
  searchBytesWith matchMetaCharsetAt s

/-! ## Charset decoding

Models Python `bytes.decode(charset)` for the codec families this
program actually meets: the latin-1 family (the program's default), the
UTF-8 family and ASCII.  Any other codec name behaves as an unknown
codec (Python `LookupError`), and invalid byte sequences behave as
Python `UnicodeDecodeError`; both are "decode failure" here. -/

/-- `bytes.decode('ascii')`: succeeds exactly on 7-bit bytes. -/
def asciiDecode (bs : List Nat) : Option String :=
  if bs.all (fun b => b < 0x80) then some (String.mk (bs.map Char.ofNat)) else none

/-- `bytes.decode('latin_1')`: total, byte `b` becomes code point `b`. -/
def latin1Decode (bs : List Nat) : String :=
  String.mk (bs.map Char.ofNat)

/-- UTF-8 continuation byte. -/
def utf8Cont (b : Nat) : Bool := 0x80 ≤ b ∧ b ≤ 0xBF

/-- Strict UTF-8 decoding (rejects overlong forms, surrogates and
out-of-range sequences, as Python's strict `utf_8` codec does). -/
def utf8Decode : List Nat → Option (List Char)
  | [] => some []
  | b :: l =>
    if b < 0x80 then (utf8Decode l).map (fun cs => Char.ofNat b :: cs)
    else if b < 0xC2 then none
    else if b ≤ 0xDF then
      match l with
      | b1 :: l1 =>
        if utf8Cont b1 then
          (utf8Decode l1).map (fun cs => Char.ofNat (0x40 * (b - 0xC0) + (b1 - 0x80)) :: cs)
        else none
      | [] => none
    else if b ≤ 0xEF then
      match l with
      | b1 :: b2 :: l2 =>
        if utf8Cont b1 && utf8Cont b2
            && (b ≠ 0xE0 || 0xA0 ≤ b1) && (b ≠ 0xED || b1 ≤ 0x9F) then
          (utf8Decode l2).map (fun cs =>
            Char.ofNat (0x1000 * (b - 0xE0) + 0x40 * (b1 - 0x80) + (b2 - 0x80)) :: cs)
        else none
      | _ => none
    else if b ≤ 0xF4 then
      match l with
      | b1 :: b2 :: b3 :: l3 =>
        if utf8Cont b1 && utf8Cont b2 && utf8Cont b3
            && (b ≠ 0xF0 || 0x90 ≤ b1) && (b ≠ 0xF4 || b1 ≤ 0x8F) then
          (utf8Decode l3).map (fun cs =>
            Char.ofNat (0x40000 * (b - 0xF0) + 0x1000 * (b1 - 0x80)
              + 0x40 * (b2 - 0x80) + (b3 - 0x80)) :: cs)
        else none
      | _ => none
    else none

/-- Python codec-name normalization (lower-case; `-` and space become
`_`), enough for the names this program meets. -/
def normalizeCodec (s : String) : String :=
  String.mk (s.toList.map (fun c => if c = '-' ∨ c = ' ' then '_' else c.toLower))

/-- Normalized aliases of the latin-1 codec. -/
def latin1Names : List String :=
  ["latin_1", "latin1", "latin", "iso_8859_1", "iso8859_1", "8859", "cp819", "l1"]

/-- Normalized aliases of the UTF-8 codec. -/
def utf8Names : List String := ["utf_8", "utf8", "utf", "u8", "cp65001"]

/-- Normalized aliases of the ASCII codec. -/
def asciiCodecNames : List String := ["ascii", "us_ascii", "646"]

/-- `contents.decode(charset)`.  `none` is a decode failure: an unknown
codec name (`LookupError`) or invalid bytes (`UnicodeDecodeError`). -/
def pythonDecode (charset : String) (bs : List Nat) : Option String :=
  let n := normalizeCodec charset
  if latin1Names.contains n then some (latin1Decode bs)
  else if utf8Names.contains n then (utf8Decode bs).map String.mk
  else if asciiCodecNames.contains n then asciiDecode bs
  else none

/-! ## URI parsing (`urllib.parse`), as used by the redirect resolution -/

/-- A character allowed after the first one in a URL scheme. -/
def schemeChar (c : Char) : Bool :=
  c.isAlpha || c.isDigit || c = '+' || c = '-' || c = '.'

/-- `urlparse(url).scheme`: the text before the first `:`, lower-cased,
provided it is non-empty, starts with an ASCII letter and contains only
scheme characters; otherwise the empty string. -/
def pyUrlparseScheme (url : String) : String :=
  let cs := url.toList
  match cs.findIdx? (fun c => c = ':') with
  | none => ""
  | some i =>
    if 0 < i ∧ (cs.headD '0').isAlpha ∧ ((cs.take i).drop 1).all schemeChar then
      String.mk ((cs.take i).map Char.toLower)
    else ""

/-- A byte ending the netloc component. -/
def netlocStop (c : Char) : Bool := c = '/' ∨ c = '?' ∨ c = '#'

/-- `urlparse(url).netloc`: after removing the scheme, the text between
a leading `//` and the next `/`, `?` or `#`; empty when there is no
`//`. -/
def pyUrlparseNetloc (url : String) : String :=
  let scheme := pyUrlparseScheme url
  let rest := if scheme = "" then url.toList else url.toList.drop (scheme.length + 1)
  match rest with
  | '/' :: '/' :: tail => String.mk (tail.takeWhile (fun c => ¬ netlocStop c))
  | _ => ""

/-- `urlunparse((scheme, netloc, path, '', '', ''))`, as the redirect
resolution calls it: params, query and fragment are empty. -/
def pyUrlunparse (scheme netloc path : String) : String :=
  let url := if netloc ≠ "" ∨ path.take 2 = "//" then
      "//" ++ netloc ++ (if path ≠ "" ∧ path.take 1 ≠ "/" then "/" ++ path else path)
    else path
  if scheme ≠ "" then scheme ++ ":" ++ url else url

/-- The redirected URI: the original URI's scheme and netloc with the
path slot holding the captured target and empty params/query/fragment
(lines 477–478 of the source). -/
def resolveRefresh (uri target : String) : String :=
  pyUrlunparse (pyUrlparseScheme uri) (pyUrlparseNetloc uri) target

/-! ## `retrieve_uri_contents` over a network oracle -/

/-- What one `urlopen(uri)` can produce: a response (transport charset
from the headers, if any, plus the raw byte body), a refused connection
(`ConnectionError`), or any other transport failure (`URLError`,
including the unknown-scheme `ValueError` the code re-raises as
`URLError`). -/
inductive NetResult where
  | response (charset : Option String) (body : List Nat)
  | connectionError
  | urlError
deriving DecidableEq, Repr

/-- The network as an oracle from URIs to results. -/
def Network : Type := String → NetResult

/-- Result of one fetch as the per-row loop in `main` observes it:
the decoded text, a `ConnectionError`, a `URLError`, or an exception of
another class (`LookupError` / `UnicodeDecodeError` from decoding),
which no handler in the program catches. -/
inductive FetchOutcome where
  | ok (text : String)
  | connectionError
  | urlError
  | uncaught
deriving DecidableEq, Repr

/-- Charset determination (lines 492–509): the transport charset when
present; otherwise the `content-type` meta, then the `charset` meta,
then the `latin_1` default.  `none` means the captured charset name was
not ASCII-decodable (`.decode('ascii')` raised). -/
def determineCharset (charset : Option String) (contents : List Nat) : Option String :=
  match charset with
  | some c => some c
  | none =>
    match searchContentType contents with
    | some cap => asciiDecode cap
    | none =>
      match searchMetaCharset contents with
      | some cap => asciiDecode cap
      | none => some "latin_1"

/-- Determine the charset and decode the byte body with it (lines
492–512). -/
def decodeContents (charset : Option String) (contents : List Nat) : FetchOutcome :=
  match determineCharset charset contents with
  | none => .uncaught
  | some c =>
    match pythonDecode c contents with
    | some text => .ok text
    | none => .uncaught

/-- `retrieve_uri_contents(uri)` (lines 454–512), instrumented to also
return the list of URIs actually requested, in order, so that the
redirect behaviour is observable; the second component is the
function's outcome.  A meta-refresh match replaces the URI via
`resolveRefresh` and the second response's body and transport charset
supersede the first. -/
def retrieve_uri_contents (net : Network) (uri : String) : List String × FetchOutcome :=
  match net uri with
  | .connectionError => ([uri], .connectionError)
  | .urlError => ([uri], .urlError)
  | .response charset contents =>
    match searchRefresh contents with
    | none => ([uri], decodeContents charset contents)
    | some targetBytes =>
      match asciiDecode targetBytes with
      | none => ([uri], .uncaught)
      | some target =>
        let uri2 := resolveRefresh uri target
        match net uri2 with
        | .connectionError => ([uri, uri2], .connectionError)
        | .urlError => ([uri, uri2], .urlError)
        | .response charset2 contents2 => ([uri, uri2], decodeContents charset2 contents2)

/-! ## Record sources (`MantecaExcel.get_mantecas`, `MantecaText.get_mantecas`)

A spreadsheet row is modelled as its row number together with its cells
in left-to-right order; a cell is `(is_string_typed, value)` —
`cell.data_type == 's'` together with `cell.value`. -/

/-- Python `s.startswith(pre)`. -/
def pyStartswith (s pre : String) : Bool :=
  listStartsWith pre.toList s.toList

/-- The inner cell loop of `MantecaExcel.get_mantecas` (lines 243–252):
skip non-string cells, yield the first cell whose value's URL scheme
starts with `http`, then leave the row. -/
def rowFirstManteca : Nat → List (Bool × String) → Option (Nat × String)
  | _, [] => none
  | r, cell :: rest =>
    if cell.1 && pyStartswith (pyUrlparseScheme cell.2) "http" then some (r, cell.2)
    else rowFirstManteca r rest

/-- `MantecaExcel.get_mantecas`: one `(row, uri)` per row that has a
qualifying cell. -/
def MantecaExcel_get_mantecas (rows : List (Nat × List (Bool × String))) : List (Nat × String) :=
  rows.filterMap (fun r => rowFirstManteca r.1 r.2)

/-- 1-based enumeration of the file lines. -/
def enumFrom : Nat → List String → List (Nat × String)
  | _, [] => []
  | n, l :: ls => (n, l) :: enumFrom (n + 1) ls

/-- `MantecaText.get_mantecas` (lines 342–351): one `(line_number,
stripped_line)` per non-empty line; no other filtering. -/
def MantecaText_get_mantecas (lines : List String) : List (Nat × String) :=
  (enumFrom 1 lines).filterMap (fun p =>
    if pyStrip p.2 = "" then none else some (p.1, pyStrip p.2))

/-! ## The spreadsheet sink (`SkimmedExcel`) -/

/-- The sink-side state of a `SkimmedExcel` instance: the key→column
dict, the sheet's current `max_column`, and the trace of cell writes
`(row, column, value)` in order. -/
structure SkimmedExcelState where
  metadata_columns : List (String × Nat)
  max_column : Nat
  cells : List (Nat × Nat × String)
deriving DecidableEq, Repr

/-- Python dict lookup in `metadata_columns`. -/
def lookupColumn : List (String × Nat) → String → Option Nat
  | [], _ => none
  | p :: rest, key => if p.1 = key then some p.2 else lookupColumn rest key

/-- One iteration of the metadata loop in `SkimmedExcel.add_metadata`
(lines 294–325): prefix the key; when it has no column yet, take
`max_column + 1`, record the assignment and write the styled header
cell at row 1 (which raises the sheet's `max_column` to that column);
then write the value cell at `(row, column)`. -/
def addOneMetadata (st : SkimmedExcelState) (row : Nat) (kv : String × String) : SkimmedExcelState :=
  let key := CONFIG_PREFIX ++ kv.1
  match lookupColumn st.metadata_columns key with
  | some column =>
    { st with
      cells := st.cells ++ [(row, column, kv.2)]
      max_column := Nat.max st.max_column column }
  | none =>
    let column := st.max_column + 1
    { metadata_columns := st.metadata_columns ++ [(key, column)]
      max_column := Nat.max (Nat.max st.max_column column) column
      cells := (st.cells ++ [(1, column, key)]) ++ [(row, column, kv.2)] }

/-- `SkimmedExcel.add_metadata(row, uri, metadata)`; the URI is unused. -/
def add_metadata (st : SkimmedExcelState) (row : Nat) (_uri : String) (metadata : List (String × String)) : SkimmedExcelState :=
  metadata.foldl (fun acc kv => addOneMetadata acc row kv) st

/-- A sequence of `add_metadata` calls on one sink instance. -/
def runSink (st : SkimmedExcelState) (calls : List (Nat × String × List (String × String))) : SkimmedExcelState :=
  calls.foldl (fun acc c => add_metadata acc c.1 c.2.1 c.2.2) st

/-! ## The per-row loop of `main` (lines 564–585)

One `LibraryCatalogueHTMLParser` instance is created before the loop
and shared by every row; `bad_uris` collects `(uri, reason)` failure
entries; sink calls are recorded as `(row, uri, metadata)`.  The
tokenizer (Python's `HTMLParser` machinery, standard-library code) is
a parameter turning fetched text into handler events. -/

/-- The loop state: the shared parser instance, the sink calls made so
far, and the accumulated failure entries. -/
structure PipelineState where
  parser : ParserState
  sink_calls : List (Nat × String × List (String × String))
  bad_uris : List (String × String)
deriving DecidableEq, Repr

/-- The state at loop entry. -/
def initPipeline : PipelineState :=
  { parser := initParserState, sink_calls := [], bad_uris := [] }

/-- The body of the per-row `try` block with its two handlers:
`ConnectionError` appends `'No se pudo conectar'`, `URLError` appends
`'No se pudo acceder'`; on success the parse runs, an empty mapping
additionally appends `'No se obtuvieron metadatos'`, and the sink is
called.  `none` models an exception no handler catches (a decode
failure), which escapes the loop. -/
def processManteca (net : Network) (tokenize : String → List HTMLEvent)
    (st : PipelineState) (row : Nat) (uri : String) : Option PipelineState :=
  match (retrieve_uri_contents net uri).2 with
  | .ok text =>
    let p := parse CONFIG_K_DIV_CLASS CONFIG_V_DIV_CLASS st.parser (tokenize text)
    some { parser := p
           sink_calls := st.sink_calls ++ [(row, uri, p.retrieved_metadata)]
           bad_uris := if p.retrieved_metadata = [] then
               st.bad_uris ++ [(uri, "No se obtuvieron metadatos")]
             else st.bad_uris }
  | .connectionError => some { st with bad_uris := st.bad_uris ++ [(uri, "No se pudo conectar")] }
  | .urlError => some { st with bad_uris := st.bad_uris ++ [(uri, "No se pudo acceder")] }
  | .uncaught => none

/-- The whole `for row, uri in mantecafile.get_mantecas()` loop.  The
boolean is `true` when an uncaught exception aborted the run: the state
reached so far is returned, the remaining rows are never processed, and
no further bookkeeping happens. -/
def runPipeline (net : Network) (tokenize : String → List HTMLEvent) :
    List (Nat × String) → PipelineState → PipelineState × Bool
  | [], st => (st, false)
  | (row, uri) :: rest, st =>
    match processManteca net tokenize st row uri with
    | some st1 => runPipeline net tokenize rest st1
    | none => (st, true)

/-! ## Helper lemmas about the extractor -/

/-- One attribute step never touches the result dict. -/
theorem startTagStep_retrieved (k_class v_class : String) (st : ParserState) (a : String × String) :
    (startTagStep k_class v_class st a).retrieved_metadata = st.retrieved_metadata := by
  unfold startTagStep
  split <;> split <;> rfl

/-- `handle_starttag` never touches the result dict. -/
theorem handle_starttag_retrieved (k_class v_class : String) (attrs : List (String × String)) (s : ParserState) :
    (handle_starttag k_class v_class attrs s).retrieved_metadata = s.retrieved_metadata := by
  induction attrs generalizing s with
  | nil => rfl
  | cons a rest ih =>
    show (handle_starttag k_class v_class rest (startTagStep k_class v_class s a)).retrieved_metadata = _
    rw [ih, startTagStep_retrieved]

/-- `handle_data` never touches the result dict. -/
theorem handle_data_retrieved (d : String) (s : ParserState) :
    (handle_data d s).retrieved_metadata = s.retrieved_metadata := by
  unfold handle_data
  dsimp only
  repeat' split
  all_goals rfl

/-- Branch-free description of `handle_endtag`: on any close tag, both
flags end up cleared; when the value flag was set, the pair is
committed and the buffers reset; otherwise everything but the key flag
is kept. -/
theorem handle_endtag_eq (t : String) (s : ParserState) :
    handle_endtag t s =
      if s.within_v_tag then
        { within_k_tag := false, within_v_tag := false, current_key := "", current_value := "",
          retrieved_metadata := dictAssign s.retrieved_metadata
            (if s.current_key = "" then "[vacío]" else s.current_key) s.current_value }
      else { s with within_k_tag := false } := by
  rcases s with ⟨wk, wv, ck, cv, md⟩
  cases wk <;> cases wv <;> rfl

/-- Looking up the just-assigned key returns the just-assigned value
(dict assignment overwrites). -/
theorem dictGet_dictAssign (d : List (String × String)) (k v : String) :
    dictGet (dictAssign d k v) k = some v := by
  induction d with
  | nil => simp [dictAssign, dictGet]
  | cons p rest ih =>
    by_cases h : p.1 = k
    · simp [dictAssign, h, dictGet]
    · simp [dictAssign, h, dictGet, ih]

/-- Dict assignment adds the key at the end when absent and keeps the
key sequence unchanged when present. -/
theorem dictAssign_keys (d : List (String × String)) (k v : String) :
    (dictAssign d k v).map Prod.fst =
      if k ∈ d.map Prod.fst then d.map Prod.fst else d.map Prod.fst ++ [k] := by
  induction d with
  | nil => simp [dictAssign]
  | cons p rest ih =>
    by_cases h : p.1 = k
    · simp [dictAssign, h]
    · rcases Decidable.em (k ∈ rest.map Prod.fst) with hm | hm <;>
        simp [dictAssign, h, ih, hm, Ne.symm h]

/-- Every binding of `dictAssign d k v` has key `k` or comes from `d`. -/
theorem mem_dictAssign (d : List (String × String)) (k v : String) (p : String × String)
    (h : p ∈ dictAssign d k v) : p.1 = k ∨ p ∈ d := by
  induction d with
  | nil =>
    simp [dictAssign] at h
    left; rw [h]
  | cons q rest ih =>
    by_cases hq : q.1 = k
    · rw [dictAssign, if_pos hq] at h
      rcases List.mem_cons.mp h with h1 | h1
      · left; rw [h1]
      · right; exact List.mem_cons_of_mem _ h1
    · rw [dictAssign, if_neg hq] at h
      rcases List.mem_cons.mp h with h1 | h1
      · right; rw [h1]; exact List.mem_cons_self _ _
      · rcases ih h1 with h2 | h2
        · left; exact h2
        · right; exact List.mem_cons_of_mem _ h2

/-- All keys of the result dict are non-empty. -/
def keysNE (d : List (String × String)) : Prop := ∀ p ∈ d, p.1 ≠ ""

/-- `handle_endtag` preserves non-emptiness of the committed keys: the
committed key is the sentinel or a non-empty buffer. -/
theorem handle_endtag_keysNE (t : String) (s : ParserState)
    (h : keysNE s.retrieved_metadata) : keysNE (handle_endtag t s).retrieved_metadata := by
  rw [handle_endtag_eq]
  split
  · intro p hp
    rcases mem_dictAssign _ _ _ _ hp with h1 | h1
    · rw [h1]
      split
      · decide
      · assumption
    · exact h p h1
  · exact h

/-- `feed` preserves non-emptiness of all result keys. -/
theorem feed_keysNE (k_class v_class : String) (events : List HTMLEvent) (s : ParserState)
    (h : keysNE s.retrieved_metadata) : keysNE (feed k_class v_class s events).retrieved_metadata := by
  induction events generalizing s with
  | nil => exact h
  | cons e rest ih =>
    show keysNE (feed k_class v_class (handleEvent k_class v_class s e) rest).retrieved_metadata
    refine ih _ ?_
    cases e with
    | starttag t attrs =>
      show keysNE (handle_starttag k_class v_class attrs s).retrieved_metadata
      rw [handle_starttag_retrieved]; exact h
    | endtag t => exact handle_endtag_keysNE t s h
    | text d =>
      show keysNE (handle_data d s).retrieved_metadata
      rw [handle_data_retrieved]; exact h

/-! ## Claim C4 -/

/-- C4 counterexample.  The claim states that an inside-key region flag
is cleared exactly on the matching close tag, and that a close tag of
an unrelated element does not clear it.  In the program a `</span>`
close tag arriving inside a key region opened by `<div class="auth">`
clears the flag: `handle_endtag` never looks at the tag name. -/
theorem c4_unrelated_endtag_clears_flag :
    (feed CONFIG_K_DIV_CLASS CONFIG_V_DIV_CLASS initParserState
      [.starttag "div" [("class", "auth")], .text "Clave", .endtag "span"]).within_k_tag = false
    ∧ ("span" : String) ≠ "div" := by
  constructor
  · rfl
  · decide

/-- C4 amended: each region flag set by a marker-carrying open tag is
cleared by the *first* close tag of *any* element handled while the
flag is set — matching or not — and the close-tag handler is entirely
independent of the tag name. -/
theorem c4_amended_any_endtag_clears (s : ParserState) (t1 t2 : String) :
    (handle_endtag t1 s).within_k_tag = false
    ∧ (handle_endtag t1 s).within_v_tag = false
    ∧ handle_endtag t1 s = handle_endtag t2 s := by
  refine ⟨?_, ?_, rfl⟩ <;> rw [handle_endtag_eq] <;> split
  · rfl
  · rfl
  · rfl
  · next hv => simpa using hv

/-! ## Claim C5 -/

/-- C5 counterexample.  The claim states that a marker-carrying open
tag occurring while the region flag is already set leaves the buffer's
collected text intact.  In the program the re-open *resets* the buffer:
after key text "A" a second `<div class="auth">` discards it, and the
buffer ends up holding only the later "B", not "AB". -/
theorem c5_reopen_discards_buffer :
    (feed CONFIG_K_DIV_CLASS CONFIG_V_DIV_CLASS initParserState
      [.starttag "div" [("class", "auth")], .text "A",
       .starttag "div" [("class", "auth")], .text "B"]).current_key = "B"
    ∧ ("B" : String) ≠ "A" ++ "B" := by
  constructor
  · rfl
  · decide

/-- A step on an attribute never clears a set key flag. -/
theorem startTagStep_k_mono (k_class v_class : String) (st : ParserState) (a : String × String)
    (h : st.within_k_tag = true) : (startTagStep k_class v_class st a).within_k_tag = true := by
  unfold startTagStep
  split <;> split <;> simp_all

/-- A step on an attribute never clears a set value flag. -/
theorem startTagStep_v_mono (k_class v_class : String) (st : ParserState) (a : String × String)
    (h : st.within_v_tag = true) : (startTagStep k_class v_class st a).within_v_tag = true := by
  unfold startTagStep
  split <;> split <;> simp_all

/-- A step on an attribute keeps an empty key buffer empty. -/
theorem startTagStep_key_empty (k_class v_class : String) (st : ParserState) (a : String × String)
    (h : st.current_key = "") : (startTagStep k_class v_class st a).current_key = "" := by
  unfold startTagStep
  split <;> split <;> simp_all

/-- A step on an attribute keeps an empty value buffer empty. -/
theorem startTagStep_value_empty (k_class v_class : String) (st : ParserState) (a : String × String)
    (h : st.current_value = "") : (startTagStep k_class v_class st a).current_value = "" := by
  unfold startTagStep
  split <;> split <;> simp_all

/-- A step on a key-marker attribute sets the key flag and resets the
key buffer. -/
theorem startTagStep_k_set (k_class v_class : String) (st : ParserState) (a : String × String)
    (h1 : a.1 = "class") (h2 : strContains k_class a.2 = true) :
    (startTagStep k_class v_class st a).within_k_tag = true
    ∧ (startTagStep k_class v_class st a).current_key = "" := by
  unfold startTagStep
  dsimp only
  split <;> split <;> simp_all

/-- A step on a value-marker attribute sets the value flag and resets
the value buffer. -/
theorem startTagStep_v_set (k_class v_class : String) (st : ParserState) (a : String × String)
    (h1 : a.1 = "class") (h2 : strContains v_class a.2 = true) :
    (startTagStep k_class v_class st a).within_v_tag = true
    ∧ (startTagStep k_class v_class st a).current_value = "" := by
  unfold startTagStep
  dsimp only
  split <;> split <;> simp_all

/-- `handle_starttag` never clears a set key flag and keeps an empty
key buffer empty. -/
theorem handle_starttag_k_mono (k_class v_class : String) (attrs : List (String × String)) (s : ParserState)
    (hf : s.within_k_tag = true) (hb : s.current_key = "") :
    (handle_starttag k_class v_class attrs s).within_k_tag = true
    ∧ (handle_starttag k_class v_class attrs s).current_key = "" := by
  induction attrs generalizing s with
  | nil => exact ⟨hf, hb⟩
  | cons a rest ih =>
    exact ih (startTagStep k_class v_class s a)
      (startTagStep_k_mono _ _ _ _ hf) (startTagStep_key_empty _ _ _ _ hb)

/-- `handle_starttag` never clears a set value flag and keeps an empty
value buffer empty. -/
theorem handle_starttag_v_mono (k_class v_class : String) (attrs : List (String × String)) (s : ParserState)
    (hf : s.within_v_tag = true) (hb : s.current_value = "") :
    (handle_starttag k_class v_class attrs s).within_v_tag = true
    ∧ (handle_starttag k_class v_class attrs s).current_value = "" := by
  induction attrs generalizing s with
  | nil => exact ⟨hf, hb⟩
  | cons a rest ih =>
    exact ih (startTagStep k_class v_class s a)
      (startTagStep_v_mono _ _ _ _ hf) (startTagStep_value_empty _ _ _ _ hb)

/-- C5 amended: a marker-carrying open tag while the corresponding
region flag is already set does not crash and leaves the flag set, but
it *resets* the corresponding buffer to empty — the text collected so
far is discarded and accumulation restarts into a fresh buffer. -/
theorem c5_amended_reopen_resets (k_class v_class : String) (attrs : List (String × String)) (s : ParserState) :
    (s.within_k_tag = true →
      (∃ a ∈ attrs, a.1 = "class" ∧ strContains k_class a.2 = true) →
      (handle_starttag k_class v_class attrs s).within_k_tag = true
      ∧ (handle_starttag k_class v_class attrs s).current_key = "")
    ∧ (s.within_v_tag = true →
      (∃ a ∈ attrs, a.1 = "class" ∧ strContains v_class a.2 = true) →
      (handle_starttag k_class v_class attrs s).within_v_tag = true
      ∧ (handle_starttag k_class v_class attrs s).current_value = "") := by
  constructor
  · intro hf h
    induction attrs generalizing s with
    | nil => rcases h with ⟨a, ha, _⟩; cases ha
    | cons a rest ih =>
      show (handle_starttag k_class v_class rest (startTagStep k_class v_class s a)).within_k_tag = true ∧ _
      rcases h with ⟨b, hb, hb1, hb2⟩
      rcases List.mem_cons.mp hb with rfl | hbr
      · obtain ⟨h1, h2⟩ := startTagStep_k_set k_class v_class s b hb1 hb2
        exact handle_starttag_k_mono _ _ _ _ h1 h2
      · exact ih _ (startTagStep_k_mono _ _ _ _ hf) ⟨b, hbr, hb1, hb2⟩
  · intro hf h
    induction attrs generalizing s with
    | nil => rcases h with ⟨a, ha, _⟩; cases ha
    | cons a rest ih =>
      show (handle_starttag k_class v_class rest (startTagStep k_class v_class s a)).within_v_tag = true ∧ _
      rcases h with ⟨b, hb, hb1, hb2⟩
      rcases List.mem_cons.mp hb with rfl | hbr
      · obtain ⟨h1, h2⟩ := startTagStep_v_set k_class v_class s b hb1 hb2
        exact handle_starttag_v_mono _ _ _ _ h1 h2
      · exact ih _ (startTagStep_v_mono _ _ _ _ hf) ⟨b, hbr, hb1, hb2⟩

/-- C5 amended, witnessed on a concrete re-opened key region. -/
theorem c5_amended_instance :
    (handle_starttag CONFIG_K_DIV_CLASS CONFIG_V_DIV_CLASS [("class", "auth")]
      (⟨true, false, "A", "", []⟩ : ParserState)).within_k_tag = true
    ∧ (handle_starttag CONFIG_K_DIV_CLASS CONFIG_V_DIV_CLASS [("class", "auth")]
      (⟨true, false, "A", "", []⟩ : ParserState)).current_key = "" :=
  (c5_amended_reopen_resets CONFIG_K_DIV_CLASS CONFIG_V_DIV_CLASS [("class", "auth")]
    (⟨true, false, "A", "", []⟩ : ParserState)).1 rfl
    ⟨("class", "auth"), by decide, rfl, by decide⟩

/-! ## Claim C6 -/

/-- C6: a commit into the result mapping happens exactly on close of a
value region, as the pair `(current key, current value)` with the
sentinel replacing an empty key buffer — the program spells the
sentinel `"[vacío]"`, Spanish for the spec's "[empty]" — a later commit
under the same key silently overwrites the earlier one (last-write-wins,
without duplicating the key), both buffers are reset afterwards, a key
region closing alone commits nothing, and consequently every key of
every extracted metadata set is a non-empty string. -/
theorem c6_value_close_commit :
    (∀ (s : ParserState) (t : String), s.within_v_tag = true →
      (handle_endtag t s).retrieved_metadata
        = dictAssign s.retrieved_metadata
            (if s.current_key = "" then "[vacío]" else s.current_key) s.current_value
      ∧ (handle_endtag t s).current_key = "" ∧ (handle_endtag t s).current_value = "")
    ∧ (∀ (s : ParserState) (t : String), s.within_v_tag = false →
      (handle_endtag t s).retrieved_metadata = s.retrieved_metadata
      ∧ (handle_endtag t s).current_key = s.current_key
      ∧ (handle_endtag t s).current_value = s.current_value)
    ∧ (∀ (d : List (String × String)) (k v : String), dictGet (dictAssign d k v) k = some v)
    ∧ (∀ (d : List (String × String)) (k v : String), (dictAssign d k v).map Prod.fst
        = if k ∈ d.map Prod.fst then d.map Prod.fst else d.map Prod.fst ++ [k])
    ∧ (∀ (k_class v_class : String) (s : ParserState) (events : List HTMLEvent),
        ∀ p ∈ (parse k_class v_class s events).retrieved_metadata, p.1 ≠ "") := by
  refine ⟨?_, ?_, dictGet_dictAssign, dictAssign_keys, ?_⟩
  · intro s t hv
    rw [handle_endtag_eq, if_pos hv]
    exact ⟨rfl, rfl, rfl⟩
  · intro s t hv
    rw [handle_endtag_eq, if_neg (by simp [hv])]
    exact ⟨rfl, rfl, rfl⟩
  · intro k_class v_class s events
    exact feed_keysNE k_class v_class events _ (by intro p hp; cases hp)

/-- C6, witnessed: closing a value region with an empty key buffer
commits the sentinel pair. -/
theorem c6_commit_instance :
    (handle_endtag "div" (⟨false, true, "", "V", []⟩ : ParserState)).retrieved_metadata
      = [("[vacío]", "V")] := by
  have h := (c6_value_close_commit.1 (⟨false, true, "", "V", []⟩ : ParserState) "div" rfl).1
  rw [h]; rfl

/-! ## Claim C7 -/

/-- C7 counterexample.  The claim states extraction is idempotent
because *all* internal state is reset at the start of each call.  Only
the result mapping is: on `</x><div class="titn">V` (unclosed value
region), the first run returns an empty mapping but leaves the value
flag set, so an immediate second run on identical input commits at the
leading close tag and returns a non-empty mapping. -/
theorem c7_not_idempotent :
    (parse CONFIG_K_DIV_CLASS CONFIG_V_DIV_CLASS initParserState
        [.endtag "x", .starttag "div" [("class", "titn")], .text "V"]).retrieved_metadata = []
    ∧ (parse CONFIG_K_DIV_CLASS CONFIG_V_DIV_CLASS
        (parse CONFIG_K_DIV_CLASS CONFIG_V_DIV_CLASS initParserState
          [.endtag "x", .starttag "div" [("class", "titn")], .text "V"])
        [.endtag "x", .starttag "div" [("class", "titn")], .text "V"]).retrieved_metadata
      = [("[vacío]", "V")]
    ∧ ([] : List (String × String)) ≠ [("[vacío]", "V")] := by
  refine ⟨rfl, rfl, by decide⟩

/-- C7 amended: `parse` resets only the result mapping; the region
flags and buffers persist across calls.  Consequently running the
extraction twice on identical input and markers yields the identical
mapping whenever the first run ends with both flags clear and both
buffers empty (in particular whenever every opened region is closed);
in general the runs may differ. -/
theorem c7_amended_idempotent_when_clean (k_class v_class : String) (events : List HTMLEvent)
    (h1 : (parse k_class v_class initParserState events).within_k_tag = false)
    (h2 : (parse k_class v_class initParserState events).within_v_tag = false)
    (h3 : (parse k_class v_class initParserState events).current_key = "")
    (h4 : (parse k_class v_class initParserState events).current_value = "") :
    (parse k_class v_class (parse k_class v_class initParserState events) events).retrieved_metadata
      = (parse k_class v_class initParserState events).retrieved_metadata := by
  have key : { parse k_class v_class initParserState events with
      retrieved_metadata := ([] : List (String × String)) } = initParserState := by
    rcases hs : parse k_class v_class initParserState events with ⟨a, b, c, d, e⟩
    rw [hs] at h1 h2 h3 h4
    dsimp at h1 h2 h3 h4
    subst h1; subst h2; subst h3; subst h4
    rfl
  conv_lhs => rw [parse, key]
  rfl

/-! ## Claim C1 -/

/-- C1: whenever the raw byte body of the first response matches the
meta-refresh byte pattern (case-insensitively, on the undecoded bytes)
with an ASCII target, the fetcher issues a second GET — the request
trace is exactly `[uri, resolved]` — against the URI built from the
original URI's scheme and netloc with the path/query/fragment slots
holding only the target (`resolveRefresh`, a full replacement, not a
merge), and the outcome is the second response's body decoded under the
second response's transport charset, superseding the first response
entirely. -/
theorem c1_meta_refresh_redirection (net : Network) (uri : String)
    (cs1 : Option String) (body1 : List Nat) (targetBytes : List Nat) (target : String)
    (cs2 : Option String) (body2 : List Nat)
    (h1 : net uri = .response cs1 body1)
    (h2 : searchRefresh body1 = some targetBytes)
    (h3 : asciiDecode targetBytes = some target)
    (h4 : net (resolveRefresh uri target) = .response cs2 body2) :
    retrieve_uri_contents net uri
      = ([uri, resolveRefresh uri target], decodeContents cs2 body2) := by
  simp only [retrieve_uri_contents, h1, h2, h3, h4]

/-- Page A: its body carries `content="0;url=/b.html"`. -/
def bodyRefreshA : List Nat := strBytes "<meta http-equiv=\"refresh\" content=\"0;url=/b.html\">"

/-- Page B: plain contents. -/
def bodyContentsB : List Nat := strBytes "Contents of B"

/-- A two-page site: A redirects to B via meta refresh. -/
def netAB : Network := fun u =>
  if u = "http://host/a.html" then .response none bodyRefreshA
  else if u = "http://host/b.html" then .response none bodyContentsB
  else .urlError

/-- C1, witnessed on the spec's scenario: fetching
`http://host/a.html` requests `http://host/b.html` (path fully
replaced) and returns B's decoded content, not A's. -/
theorem c1_redirect_scenario :
    retrieve_uri_contents netAB "http://host/a.html"
      = (["http://host/a.html", "http://host/b.html"], .ok "Contents of B") :=
  (c1_meta_refresh_redirection netAB "http://host/a.html" none bodyRefreshA
    (strBytes "/b.html") "/b.html" none bodyContentsB rfl rfl rfl rfl).trans rfl

/-! ## Claim C2 -/

/-- C2: with no transport charset the decoding charset comes from this
exact fallback order, stopping at the first match: (i) the
`content-type` meta charset, (ii) the `<meta charset="...">`
declaration, (iii) the `latin_1` default.  Concretely, a body whose
only signal is `<meta charset="utf-8">` decodes as UTF-8 (the sample
body ends in the two-byte UTF-8 sequence `C3 A9` for `é`), and a body
with no charset signal decodes as latin-1 and never as UTF-8 — the
sample body ends in `FF`, which UTF-8 rejects outright. -/
theorem c2_charset_fallback_order :
    (∀ (body cap : List Nat) (cs : String), searchContentType body = some cap →
        asciiDecode cap = some cs → determineCharset none body = some cs)
    ∧ (∀ (body cap : List Nat) (cs : String), searchContentType body = none →
        searchMetaCharset body = some cap → asciiDecode cap = some cs →
        determineCharset none body = some cs)
    ∧ (∀ body : List Nat, searchContentType body = none → searchMetaCharset body = none →
        determineCharset none body = some "latin_1")
    ∧ decodeContents none (strBytes "<meta charset=\"utf-8\">" ++ [0xC3, 0xA9])
        = .ok "<meta charset=\"utf-8\">é"
    ∧ decodeContents none (strBytes "hola " ++ [0xFF]) = .ok "hola ÿ"
    ∧ utf8Decode (strBytes "hola " ++ [0xFF]) = none := by
  refine ⟨?_, ?_, ?_, rfl, rfl, rfl⟩
  · intro body cap cs hct ha
    simp only [determineCharset, hct, ha]
  · intro body cap cs hct hmc ha
    simp only [determineCharset, hct, hmc, ha]
  · intro body hct hmc
    simp only [determineCharset, hct, hmc]

/-- C2, witnessed on one instance of each fallback stage. -/
theorem c2_fallback_instances :
    determineCharset none
        (strBytes "<meta http-equiv=\"content-type\" content=\"text/html; charset=utf-8\">")
      = some "utf-8"
    ∧ determineCharset none (strBytes "<meta charset=\"windows-1252\">") = some "windows-1252"
    ∧ determineCharset none (strBytes "no charset signal") = some "latin_1" := by
  refine ⟨?_, ?_, ?_⟩
  · exact c2_charset_fallback_order.1 _ (strBytes "utf-8") "utf-8" rfl rfl
  · exact c2_charset_fallback_order.2.1 _ (strBytes "windows-1252") "windows-1252" rfl rfl rfl
  · exact c2_charset_fallback_order.2.2.1 _ rfl rfl

/-! ## Claim C3 -/

/-- A site where the first page declares `utf-8` but its body is the
single byte `FF` (not valid UTF-8), and a second page is fine. -/
def netDecodeFail : Network := fun u =>
  if u = "http://host/bad" then .response (some "utf-8") [0xFF]
  else if u = "http://host/good" then .response none (strBytes "hi")
  else .urlError

/-- C3 counterexample.  The claim states a decode failure surfaces as a
per-row recorded failure and the run continues.  In the program
`contents.decode(charset)` raises `UnicodeDecodeError` (or
`LookupError` for an unknown charset name), which neither per-row
handler (`ConnectionError`, `URLError`) catches: on a row whose body
cannot be decoded, the loop aborts with *no* failure entry recorded and
the remaining (fetchable) rows are never processed. -/
theorem c3_decode_failure_aborts_run :
    (retrieve_uri_contents netDecodeFail "http://host/bad").2 = .uncaught
    ∧ (retrieve_uri_contents netDecodeFail "http://host/good").2 = .ok "hi"
    ∧ runPipeline netDecodeFail (fun _ => []) [(1, "http://host/bad"), (2, "http://host/good")]
        initPipeline = (initPipeline, true) :=
  ⟨rfl, rfl, rfl⟩

/-- C3 amended: a decode failure (undecodable bytes or unknown charset
name) propagates as an exception no handler in the loop catches: the
row gets no failure entry, the sink is not called, and the whole run
aborts — the remaining rows are never processed. -/
theorem c3_amended_decode_failure_uncaught (net : Network) (tokenize : String → List HTMLEvent)
    (st : PipelineState) (row : Nat) (uri : String) (rest : List (Nat × String))
    (h : (retrieve_uri_contents net uri).2 = .uncaught) :
    runPipeline net tokenize ((row, uri) :: rest) st = (st, true) := by
  simp only [runPipeline, processManteca, h]

/-- C3 amended, witnessed on the undecodable page. -/
theorem c3_amended_instance :
    runPipeline netDecodeFail (fun _ => []) [(1, "http://host/bad")] initPipeline
      = (initPipeline, true) :=
  c3_amended_decode_failure_uncaught netDecodeFail (fun _ => []) initPipeline 1
    "http://host/bad" [] rfl

/-- C7 amended, witnessed on a fully closed value region. -/
theorem c7_amended_instance :
    (parse CONFIG_K_DIV_CLASS CONFIG_V_DIV_CLASS
      (parse CONFIG_K_DIV_CLASS CONFIG_V_DIV_CLASS initParserState
        [.starttag "div" [("class", "titn")], .text "V", .endtag "div"])
      [.starttag "div" [("class", "titn")], .text "V", .endtag "div"]).retrieved_metadata
    = (parse CONFIG_K_DIV_CLASS CONFIG_V_DIV_CLASS initParserState
        [.starttag "div" [("class", "titn")], .text "V", .endtag "div"]).retrieved_metadata :=
  c7_amended_idempotent_when_clean CONFIG_K_DIV_CLASS CONFIG_V_DIV_CLASS
    [.starttag "div" [("class", "titn")], .text "V", .endtag "div"] rfl rfl rfl rfl

/-! ## Claim C8 -/

/-- A lookup that succeeds still succeeds, with the same column, after
any extension of the dict. -/
theorem lookupColumn_append_some (l : List (String × Nat)) (key : String) (c : Nat)
    (h : lookupColumn l key = some c) (l2 : List (String × Nat)) :
    lookupColumn (l ++ l2) key = some c := by
  induction l with
  | nil => cases h
  | cons p rest ih =>
    rw [List.cons_append]
    by_cases hp : p.1 = key
    · rw [lookupColumn, if_pos hp] at h ⊢; exact h
    · rw [lookupColumn, if_neg hp] at h ⊢; exact ih h

/-- A lookup fails exactly when the key is absent. -/
theorem lookupColumn_none_iff (l : List (String × Nat)) (key : String) :
    lookupColumn l key = none ↔ key ∉ l.map Prod.fst := by
  induction l with
  | nil => simp [lookupColumn]
  | cons p rest ih =>
    by_cases hp : p.1 = key
    · simp [lookupColumn, hp]
    · rw [lookupColumn, if_neg hp, ih]
      simp only [List.map_cons, List.mem_cons]
      constructor
      · intro h hx
        rcases hx with h1 | h1
        · exact hp h1.symm
        · exact h h1
      · intro h h1
        exact h (Or.inr h1)

/-- The sink invariant: assigned column indices strictly increase in
assignment order, all assigned columns are within the sheet's
`max_column`, and no key is assigned twice. -/
def sinkInv (st : SkimmedExcelState) : Prop :=
  List.Chain' (· < ·) (st.metadata_columns.map Prod.snd)
  ∧ (∀ p ∈ st.metadata_columns, p.2 ≤ st.max_column)
  ∧ List.Nodup (st.metadata_columns.map Prod.fst)

/-- One metadata entry preserves the sink invariant and only ever
appends to the column dict. -/
theorem addOneMetadata_inv (st : SkimmedExcelState) (row : Nat) (kv : String × String)
    (h : sinkInv st) :
    sinkInv (addOneMetadata st row kv)
    ∧ st.metadata_columns <+: (addOneMetadata st row kv).metadata_columns := by
  obtain ⟨hch, hbd, hnd⟩ := h
  unfold addOneMetadata
  dsimp only
  split
  · -- existing key: the dict is untouched, `max_column` can only grow
    refine ⟨⟨hch, ?_, hnd⟩, List.prefix_rfl⟩
    intro p hp
    exact le_trans (hbd p hp) (Nat.le_max_left _ _)
  · -- fresh key: appended with column `max_column + 1`
    next heq =>
    refine ⟨⟨?_, ?_, ?_⟩, ⟨_, rfl⟩⟩
    · rw [List.map_append]
      refine List.Chain'.append hch (List.chain'_singleton _) ?_
      intro x hx y hy
      rcases List.mem_getLast?_eq_getLast hx with ⟨hne, rfl⟩
      obtain ⟨p, hp, hpx⟩ := List.mem_map.mp (List.getLast_mem hne)
      simp only [List.map_cons, List.map_nil, List.head?_cons, Option.mem_def,
        Option.some.injEq] at hy
      rw [← hy, ← hpx]
      exact Nat.lt_succ_of_le (hbd p hp)
    · intro p hp
      rcases List.mem_append.mp hp with h1 | h1
      · exact le_trans (hbd p h1) (le_trans (Nat.le_max_left _ _) (Nat.le_max_left _ _))
      · rcases List.mem_singleton.mp h1 with rfl
        exact le_trans (Nat.le_max_right _ _) (Nat.le_max_left _ _)
    · rw [List.map_append]
      rw [List.nodup_append]
      refine ⟨hnd, List.nodup_singleton _, ?_⟩
      intro a ha hb
      rcases List.mem_singleton.mp hb with rfl
      exact (lookupColumn_none_iff _ _).mp heq ha

/-- `add_metadata` preserves the sink invariant and only ever appends
to the column dict. -/
theorem add_metadata_inv (st : SkimmedExcelState) (row : Nat) (uri : String)
    (md : List (String × String)) (h : sinkInv st) :
    sinkInv (add_metadata st row uri md)
    ∧ st.metadata_columns <+: (add_metadata st row uri md).metadata_columns := by
  induction md generalizing st with
  | nil => exact ⟨h, List.prefix_rfl⟩
  | cons kv rest ih =>
    show sinkInv (add_metadata (addOneMetadata st row kv) row uri rest) ∧
      st.metadata_columns <+: (add_metadata (addOneMetadata st row kv) row uri rest).metadata_columns
    obtain ⟨h1, h2⟩ := addOneMetadata_inv st row kv h
    obtain ⟨h3, h4⟩ := ih _ h1
    exact ⟨h3, h2.trans h4⟩

/-- Any sequence of `add_metadata` calls preserves the sink invariant
and only ever appends to the column dict. -/
theorem runSink_inv (st : SkimmedExcelState)
    (calls : List (Nat × String × List (String × String))) (h : sinkInv st) :
    sinkInv (runSink st calls)
    ∧ st.metadata_columns <+: (runSink st calls).metadata_columns := by
  induction calls generalizing st with
  | nil => exact ⟨h, List.prefix_rfl⟩
  | cons c rest ih =>
    show sinkInv (runSink (add_metadata st c.1 c.2.1 c.2.2) rest) ∧
      st.metadata_columns <+: (runSink (add_metadata st c.1 c.2.1 c.2.2) rest).metadata_columns
    obtain ⟨h1, h2⟩ := add_metadata_inv st c.1 c.2.1 c.2.2 h
    obtain ⟨h3, h4⟩ := ih _ h1
    exact ⟨h3, h2.trans h4⟩

/-- C8: over any sequence of `add_metadata` calls on one sink instance
(started in any state satisfying the sink invariant, e.g. a freshly
loaded workbook), each prefixed key is assigned exactly one column for
the instance's lifetime: assigned column indices are strictly
monotonically increasing in assignment order and never reused or
reordered (earlier assignments form a stable prefix), keys never get a
second column, an existing assignment survives any later calls with the
same column, and a call with an already-assigned key creates no new
column — it writes the value cell into the column created by the first
assignment. -/
theorem c8_column_assignment_stable (st : SkimmedExcelState) (h : sinkInv st)
    (calls : List (Nat × String × List (String × String))) :
    List.Chain' (· < ·) ((runSink st calls).metadata_columns.map Prod.snd)
    ∧ List.Nodup ((runSink st calls).metadata_columns.map Prod.fst)
    ∧ st.metadata_columns <+: (runSink st calls).metadata_columns
    ∧ (∀ (key : String) (c : Nat), lookupColumn st.metadata_columns key = some c →
        lookupColumn (runSink st calls).metadata_columns key = some c)
    ∧ (∀ (row : Nat) (uri k val : String) (c : Nat),
        lookupColumn st.metadata_columns (CONFIG_PREFIX ++ k) = some c →
        (add_metadata st row uri [(k, val)]).metadata_columns = st.metadata_columns
        ∧ (add_metadata st row uri [(k, val)]).cells = st.cells ++ [(row, c, val)]) := by
  obtain ⟨hinv, hpre⟩ := runSink_inv st calls h
  refine ⟨hinv.1, hinv.2.2, hpre, ?_, ?_⟩
  · intro key c hc
    obtain ⟨t, ht⟩ := hpre
    rw [← ht]
    exact lookupColumn_append_some _ _ _ hc t
  · intro row uri k val c hc
    show (addOneMetadata st row (k, val)).metadata_columns = _
      ∧ (addOneMetadata st row (k, val)).cells = _
    unfold addOneMetadata
    dsimp only
    rw [hc]
    exact ⟨rfl, rfl⟩

/-- C8, witnessed: a fresh sink over a 5-column sheet receiving the
same key in two calls creates one column and keeps every invariant. -/
theorem c8_column_instance :
    List.Chain' (· < ·) ((runSink (⟨[], 5, []⟩ : SkimmedExcelState)
        [(2, "u", [("Autor", "X")]), (3, "u2", [("Autor", "Y")])]).metadata_columns.map Prod.snd)
    ∧ List.Nodup ((runSink (⟨[], 5, []⟩ : SkimmedExcelState)
        [(2, "u", [("Autor", "X")]), (3, "u2", [("Autor", "Y")])]).metadata_columns.map Prod.fst)
    ∧ ([] : List (String × Nat)) <+: (runSink (⟨[], 5, []⟩ : SkimmedExcelState)
        [(2, "u", [("Autor", "X")]), (3, "u2", [("Autor", "Y")])]).metadata_columns
    ∧ (∀ (key : String) (c : Nat), lookupColumn [] key = some c →
        lookupColumn (runSink (⟨[], 5, []⟩ : SkimmedExcelState)
          [(2, "u", [("Autor", "X")]), (3, "u2", [("Autor", "Y")])]).metadata_columns key = some c)
    ∧ (∀ (row : Nat) (uri k val : String) (c : Nat),
        lookupColumn [] (CONFIG_PREFIX ++ k) = some c →
        (add_metadata (⟨[], 5, []⟩ : SkimmedExcelState) row uri [(k, val)]).metadata_columns = []
        ∧ (add_metadata (⟨[], 5, []⟩ : SkimmedExcelState) row uri [(k, val)]).cells
          = [] ++ [(row, c, val)]) :=
  c8_column_assignment_stable (⟨[], 5, []⟩ : SkimmedExcelState)
    ⟨by simp, by simp, by simp⟩
    [(2, "u", [("Autor", "X")]), (3, "u2", [("Autor", "Y")])]

/-! ## Claim C9 -/

/-- C9: for a row whose fetch fails with a connection failure, exactly
one failure entry is appended with the distinguished reason the program
spells `'No se pudo conectar'` ("could not connect"), the sink is not
called, and the loop continues with the remaining rows; for any other
transport failure likewise with `'No se pudo acceder'` ("could not
reach"), a different reason; and for a successful fetch whose
extraction yields an empty mapping, the sink *is* called with the empty
metadata set — which creates no columns — and one failure entry with
the reason spelled `'No se obtuvieron metadatos'` ("no metadata
obtained") is additionally appended. -/
theorem c9_pipeline_row_handling (net : Network) (tokenize : String → List HTMLEvent)
    (st : PipelineState) (row : Nat) (uri : String) (rest : List (Nat × String)) :
    ((retrieve_uri_contents net uri).2 = .connectionError →
      runPipeline net tokenize ((row, uri) :: rest) st
        = runPipeline net tokenize rest
            { st with bad_uris := st.bad_uris ++ [(uri, "No se pudo conectar")] })
    ∧ ((retrieve_uri_contents net uri).2 = .urlError →
      runPipeline net tokenize ((row, uri) :: rest) st
        = runPipeline net tokenize rest
            { st with bad_uris := st.bad_uris ++ [(uri, "No se pudo acceder")] })
    ∧ (∀ text : String, (retrieve_uri_contents net uri).2 = .ok text →
      (parse CONFIG_K_DIV_CLASS CONFIG_V_DIV_CLASS st.parser (tokenize text)).retrieved_metadata = [] →
      runPipeline net tokenize ((row, uri) :: rest) st
        = runPipeline net tokenize rest
            (⟨parse CONFIG_K_DIV_CLASS CONFIG_V_DIV_CLASS st.parser (tokenize text),
              st.sink_calls ++ [(row, uri, [])],
              st.bad_uris ++ [(uri, "No se obtuvieron metadatos")]⟩ : PipelineState))
    ∧ (∀ (sst : SkimmedExcelState) (r : Nat) (u : String), add_metadata sst r u [] = sst)
    ∧ ("No se pudo conectar" : String) ≠ "No se pudo acceder" := by
  refine ⟨?_, ?_, ?_, fun sst r u => rfl, by decide⟩
  · intro h
    simp only [runPipeline, processManteca, h]
  · intro h
    simp only [runPipeline, processManteca, h]
  · intro text h1 h2
    simp only [runPipeline, processManteca, h1, h2, if_pos]

/-- A network refusing every connection. -/
def netConnFail : Network := fun _ => .connectionError

/-- C9, witnessed on a refused connection: one failure entry with the
connection reason, no sink call, loop terminates normally. -/
theorem c9_pipeline_instance :
    runPipeline netConnFail (fun _ => []) [(1, "http://host/x")] initPipeline
      = ((⟨initParserState, [], [("http://host/x", "No se pudo conectar")]⟩ : PipelineState), false) := by
  have h := (c9_pipeline_row_handling netConnFail (fun _ => []) initPipeline 1 "http://host/x" []).1 rfl
  rw [h]
  rfl

/-! ## Claim C10 -/

/-- C10 counterexample.  The claim states both source variants skip
entries whose URI has no recognized scheme.  `MantecaText.get_mantecas`
performs no scheme check at all: it yields every non-empty stripped
line, so the schemeless line `hello` is yielded to the pipeline. -/
theorem c10_text_source_yields_schemeless :
    MantecaText_get_mantecas ["hello"] = [(1, "hello")]
    ∧ pyUrlparseScheme "hello" = ""
    ∧ (pyStartswith (pyUrlparseScheme "hello") "http") = false :=
  ⟨rfl, rfl, rfl⟩

/-- A yielded spreadsheet record passed the scheme test. -/
theorem rowFirstManteca_scheme (r : Nat) (cells : List (Bool × String)) (p : Nat × String)
    (h : rowFirstManteca r cells = some p) :
    (pyStartswith (pyUrlparseScheme p.2) "http") = true := by
  induction cells with
  | nil => cases h
  | cons cell rest ih =>
    by_cases hc : (cell.1 && pyStartswith (pyUrlparseScheme cell.2) "http") = true
    · rw [rowFirstManteca, if_pos hc] at h
      obtain rfl := Option.some.inj h
      have hc2 : cell.1 = true ∧ (pyStartswith (pyUrlparseScheme cell.2) "http") = true := by
        simpa using hc
      exact hc2.2
    · rw [rowFirstManteca, if_neg hc] at h
      exact ih h

/-- C10 amended: only the spreadsheet variant filters by scheme — every
record it yields has a URI whose parsed scheme starts with `http` — but
the plain-text variant yields every non-empty stripped line with no
scheme check at all, so a record with no recognized scheme can reach
the pipeline from a text source (it fails later, at fetch time, as a
`URLError`). -/
theorem c10_amended_source_filtering :
    (∀ (rows : List (Nat × List (Bool × String))) (p : Nat × String),
        p ∈ MantecaExcel_get_mantecas rows → (pyStartswith (pyUrlparseScheme p.2) "http") = true)
    ∧ (∀ (lines : List String) (p : Nat × String),
        p ∈ MantecaText_get_mantecas lines → p.2 ≠ "") := by
  constructor
  · intro rows p hp
    obtain ⟨r, hr, hsome⟩ := List.mem_filterMap.mp hp
    exact rowFirstManteca_scheme r.1 r.2 p hsome
  · intro lines p hp
    obtain ⟨q, hq, hsome⟩ := List.mem_filterMap.mp hp
    by_cases h0 : pyStrip q.2 = ""
    · rw [if_pos h0] at hsome; cases hsome
    · rw [if_neg h0] at hsome
      obtain rfl := Option.some.inj hsome
      exact h0

/-- C10 amended, witnessed: a spreadsheet row yields its first
http-scheme string cell; a text file yields a schemeless line. -/
theorem c10_amended_instance :
    (pyStartswith (pyUrlparseScheme "https://x.example/a") "http") = true
    ∧ ("hello" : String) ≠ "" := by
  constructor
  · exact c10_amended_source_filtering.1 [(4, [(true, "nope"), (true, "https://x.example/a")])]
      (4, "https://x.example/a") (by
        have e : MantecaExcel_get_mantecas [(4, [(true, "nope"), (true, "https://x.example/a")])]
            = [(4, "https://x.example/a")] := rfl
        rw [e]
        exact List.mem_singleton.mpr rfl)
  · exact c10_amended_source_filtering.2 ["hello"] (1, "hello")
      (by
        have e : MantecaText_get_mantecas ["hello"] = [(1, "hello")] := rfl
        rw [e]
        exact List.mem_singleton.mpr rfl)

end Sacamantecas
